import Mathlib

/-!
Shallow embedding of the three input-guardrail predicates of `src/main.py`
(class-timing phrase check, father temperature threshold, school gatekeeper),
together with theorems settling the specification claims about them.

Python strings are modelled as Lean `String`/`List Char`; the `re` patterns
used by the source are embedded as explicit scanning functions that reproduce
the leftmost, greedy-with-backtracking semantics of the concrete patterns
`(\d{1,2})(?:...)?` and `school[:\s-]*([a-z0-9 ]+)` on the lowercased text.
-/

namespace Guardrail

/-- Values that appear in a guardrail's `output_info` dictionary. -/
inductive DiagValue where
  | vStr (s : String)
  | vInt (n : Nat)
  | vBool (b : Bool)
  | vNone
  deriving DecidableEq

/-- Embedding of `GuardrailFunctionOutput`: the diagnostics dictionary and
the tripwire flag. -/
structure GuardrailFunctionOutput where
  output_info : List (String × DiagValue)
  tripwire_triggered : Bool
  deriving DecidableEq

/-- A message-like element of a sequence input: `str(getattr(i, "content", i))`
takes the `content` attribute when present, else the element's string form. -/
structure Msg where
  content : Option String
  strForm : String
  deriving DecidableEq

/-- The raw input of a guardrail: either a single (stringified) value or a
sequence of message-like elements (`input: str | list`). -/
inductive RawInput where
  | single (s : String)
  | seq (items : List Msg)
  deriving DecidableEq

/-- `str(getattr(i, "content", i))` for one element. -/
def msgStr (m : Msg) : String := m.content.getD m.strForm

/-- The flattening step shared by all three guardrails:
`" ".join(str(getattr(i, "content", i)) for i in input)` for a list,
`str(input)` otherwise.  This is the `unified` variable of the source. -/
def unify : RawInput → String
  | .single s => s
  | .seq items => String.intercalate " " (items.map msgStr)

/-- `s.lower()` (ASCII): each character mapped to its lowercase form. -/
def lowerText (s : String) : String := String.mk (s.data.map Char.toLower)

/-- The normalized text each guardrail matches against:
`text = unified.lower()`. -/
def normalize (input : RawInput) : String := lowerText (unify input)

/-- Is `needle` a prefix of `hay`? (Executable form used by the scanners.) -/
def isPrefixL (needle hay : List Char) : Bool :=
  match needle, hay with
  | [], _ => true
  | _ :: _, [] => false
  | a :: as, b :: bs => a == b && isPrefixL as bs

/-- Executable substring containment on char lists: Python's `needle in hay`. -/
def containsL (hay needle : List Char) : Bool :=
  match hay with
  | [] => needle.isEmpty
  | _ :: tl => isPrefixL needle hay || containsL tl needle

/-- Python's `needle in hay` on strings. -/
def strContains (hay needle : String) : Bool :=
  containsL hay.toList needle.toList

/-- Exercise 1: `class_timing_guardrail` of `src/main.py`. -/
def class_timing_guardrail (input : RawInput) : GuardrailFunctionOutput :=
  let unified := unify input
  let text := lowerText unified
  if strContains text "change my class timing" || strContains text "change my class timings" then
    { output_info := [("reason", .vStr "user asked to change class timings"), ("text", .vStr unified)],
      tripwire_triggered := true }
  else
    { output_info := [("ok", .vBool true), ("text", .vStr unified)],
      tripwire_triggered := false }

/-- Group 1 of the first match of `(\d{1,2})(?:\s*°\s*c|\s*°c|\s*c\b|°| degrees)?`:
the unit suffix is optional and can always match empty, so the match starts at
the first digit of the text and the greedy `\d{1,2}` captures that digit plus
the next character when it is also a digit. -/
def firstDigitRun2 : List Char → Option (List Char)
  | [] => none
  | c :: rest =>
    if c.isDigit then
      match rest with
      | [] => some [c]
      | d :: _ => if d.isDigit then some [c, d] else some [c]
    else
      firstDigitRun2 rest

/-- `int(...)` on a list of decimal digit characters. -/
def digitsToNat (l : List Char) : Nat :=
  l.foldl (fun acc c => acc * 10 + (c.toNat - 48)) 0

/-- Exercise 2: `father_temp_guardrail` of `src/main.py`. -/
def father_temp_guardrail (input : RawInput) : GuardrailFunctionOutput :=
  let unified := unify input
  let text := lowerText unified
  match firstDigitRun2 text.toList with
  | some ds =>
    let temp := digitsToNat ds
    let info : List (String × DiagValue) := [("detected_temp", .vInt temp), ("text", .vStr unified)]
    if temp < 26 then
      { output_info := info, tripwire_triggered := true }
    else
      { output_info := info, tripwire_triggered := false }
  | none =>
    { output_info := [("detected_temp", .vNone), ("text", .vStr unified)],
      tripwire_triggered := false }

/-- The fixed ordered deny-phrase list `triggers` of `gatekeeper_guardrail`. -/
def triggersList : List String :=
  ["other school", "different school", "not from my school", "from other school", "student from "]

/-- Python's `\s` class (ASCII part). -/
def isPySpace (c : Char) : Bool :=
  c == ' ' || c == '\t' || c == '\n' || c == '\r' || c == '\x0b' || c == '\x0c'

/-- The separator class `[:\s-]` of the gatekeeper pattern. -/
def isSepChar (c : Char) : Bool :=
  c == ':' || c == '-' || isPySpace c

/-- The capture class `[a-z0-9 ]` of the gatekeeper pattern. -/
def isCapChar (c : Char) : Bool :=
  (decide (97 ≤ c.toNat ∧ c.toNat ≤ 122)) || (decide (48 ≤ c.toNat ∧ c.toNat ≤ 57)) || c == ' '

/-- Attempt of `[:\s-]*([a-z0-9 ]+)` at a position just after a literal
`school`.  The greedy `[:\s-]*` first takes the maximal separator run; if the
following capture run is empty the engine backtracks, which can only succeed
on a space character (the one character common to both classes), and the
resulting capture is then that single space. -/
def matchSchoolAt (rest : List Char) : Option (List Char) :=
  let sep := rest.takeWhile isSepChar
  let cap := (rest.dropWhile isSepChar).takeWhile isCapChar
  if cap ≠ [] then some cap
  else if sep.contains ' ' then some [' ']
  else none

/-- The literal `school` of the gatekeeper pattern, as a char list. -/
def schoolL : List Char := ['s', 'c', 'h', 'o', 'o', 'l']

/-- If `needle` is a prefix of `hay`, return the remainder of `hay`. -/
def stripPrefixL (needle hay : List Char) : Option (List Char) :=
  match needle, hay with
  | [], l => some l
  | _ :: _, [] => none
  | a :: as, b :: bs => if a == b then stripPrefixL as bs else none

/-- `re.search(r"school[:\s-]*([a-z0-9 ]+)", text)`: scan positions left to
right, at each occurrence of the literal `school` attempt the remainder of the
pattern, and return the first successful capture. -/
def schoolSearch : List Char → Option (List Char)
  | [] => none
  | c :: tl =>
    match stripPrefixL schoolL (c :: tl) with
    | some rest =>
      match matchSchoolAt rest with
      | some cap => some cap
      | none => schoolSearch tl
    | none => schoolSearch tl

/-- Python's `.strip()` on a captured token (which only ever contains spaces
as whitespace, but the model strips the full whitespace class). -/
def pyStrip (l : List Char) : List Char :=
  ((l.dropWhile isPySpace).reverse.dropWhile isPySpace).reverse

/-- Exercise 3: `gatekeeper_guardrail` of `src/main.py`. -/
def gatekeeper_guardrail (input : RawInput) : GuardrailFunctionOutput :=
  let unified := unify input
  let text := lowerText unified
  if strContains text "from my school" || strContains text "my school student" then
    { output_info := [("allowed", .vBool true), ("text", .vStr unified)],
      tripwire_triggered := false }
  else
    match triggersList.find? (fun t => strContains text t) with
    | some _ =>
      { output_info := [("reason", .vStr "other school detected"), ("text", .vStr unified)],
        tripwire_triggered := true }
    | none =>
      match schoolSearch text.toList with
      | some cap =>
        let school_name := String.mk (pyStrip cap)
        if strContains school_name "my school" then
          { output_info := [("allowed", .vBool true), ("text", .vStr unified)],
            tripwire_triggered := false }
        else
          { output_info := [("school_name", .vStr school_name), ("text", .vStr unified)],
            tripwire_triggered := true }
      | none =>
        { output_info := [("allowed", .vBool true), ("text", .vStr unified)],
          tripwire_triggered := false }

/-- Spec-side description of `" ".join`: the elements in order with exactly
one space between consecutive elements.  Used to compare the code's
`String.intercalate` against the specification's wording. -/
def joinOneSpace : List String → String
  | [] => ""
  | [s] => s
  | s :: t :: rest => s ++ " " ++ joinOneSpace (t :: rest)

/-- Tail part of `joinOneSpace`: each remaining element preceded by one
space. -/
def restJoin : List String → String
  | [] => ""
  | s :: rest => " " ++ s ++ restJoin rest

/-! ### Correctness of the executable string primitives -/

theorem isPrefixL_iff (needle hay : List Char) :
    isPrefixL needle hay = true ↔ needle <+: hay := by
  induction needle generalizing hay with
  | nil => simp [isPrefixL]
  | cons a as ih =>
    cases hay with
    | nil => simp [isPrefixL]
    | cons b bs => simp [isPrefixL, List.cons_prefix_cons, ih]

theorem containsL_iff (hay needle : List Char) :
    containsL hay needle = true ↔ needle <:+: hay := by
  induction hay with
  | nil => simp [containsL, List.isEmpty_iff]
  | cons c tl ih =>
    rw [containsL]
    simp [Bool.or_eq_true, isPrefixL_iff, ih, List.infix_cons_iff]

theorem strContains_iff (hay needle : String) :
    strContains hay needle = true ↔ needle.toList <:+: hay.toList :=
  containsL_iff _ _

theorem lookup_cons_self (k : String) (v : DiagValue) (rest : List (String × DiagValue)) :
    List.lookup k ((k, v) :: rest) = some v := by
  simp [List.lookup]

theorem lookup_text_second (k : String) (v w : DiagValue) (h : ("text" == k) = false) :
    List.lookup "text" [(k, v), ("text", w)] = some w := by
  simp [List.lookup, h]

/-! ### Claim theorems -/

/-- C3: the Class-Timing Predicate triggers if and only if the normalized
(lowercased) text contains the substring "change my class timing" or
"change my class timings" (plain substring containment); on trigger the
diagnostics carry reason = "user asked to change class timings", and on
non-trigger they carry ok = true. -/
theorem class_timing_spec (input : RawInput) :
    ((class_timing_guardrail input).tripwire_triggered = true ↔
      ("change my class timing".toList <:+: (normalize input).toList ∨
       "change my class timings".toList <:+: (normalize input).toList))
    ∧ ((class_timing_guardrail input).tripwire_triggered = true →
        (class_timing_guardrail input).output_info.lookup "reason" =
          some (DiagValue.vStr "user asked to change class timings"))
    ∧ ((class_timing_guardrail input).tripwire_triggered = false →
        (class_timing_guardrail input).output_info.lookup "ok" =
          some (DiagValue.vBool true)) := by
  have hn : normalize input = lowerText (unify input) := rfl
  rw [hn]
  simp only [class_timing_guardrail]
  split
  next h =>
    rw [Bool.or_eq_true, strContains_iff, strContains_iff] at h
    exact ⟨by simpa using h, fun _ => by simp [List.lookup], by simp⟩
  next h =>
    rw [Bool.or_eq_true, strContains_iff, strContains_iff] at h
    exact ⟨by simpa using h, by simp, fun _ => by simp [List.lookup]⟩

/-- C3 witness: the scenario input "I want to change my class timings 😭😭"
triggers with the stated reason. -/
theorem class_timing_spec_witness :
    (class_timing_guardrail (RawInput.single "I want to change my class timings 😭😭")).tripwire_triggered = true ∧
    (class_timing_guardrail (RawInput.single "I want to change my class timings 😭😭")).output_info.lookup "reason" =
      some (DiagValue.vStr "user asked to change class timings") := by
  have h := class_timing_spec (RawInput.single "I want to change my class timings 😭😭")
  have ht := h.1.mpr (Or.inl (by decide))
  exact ⟨ht, h.2.1 ht⟩

/-- C2: whenever the normalized text contains an allow-phrase ("from my
school" or "my school student"), the School-Gatekeeper Predicate returns
triggered=false with diagnostics allowed = true, regardless of any
deny-phrase also present. -/
theorem gatekeeper_allow_precedence (input : RawInput)
    (h : "from my school".toList <:+: (normalize input).toList ∨
         "my school student".toList <:+: (normalize input).toList) :
    (gatekeeper_guardrail input).tripwire_triggered = false ∧
    (gatekeeper_guardrail input).output_info.lookup "allowed" =
      some (DiagValue.vBool true) := by
  have hn : normalize input = lowerText (unify input) := rfl
  rw [hn] at h
  have hcond : (strContains (lowerText (unify input)) "from my school" ||
      strContains (lowerText (unify input)) "my school student") = true := by
    rw [Bool.or_eq_true, strContains_iff, strContains_iff]; exact h
  simp [gatekeeper_guardrail, hcond, List.lookup]

/-- C2 witness: "other school but I am a my school student" contains both a
deny-phrase and an allow-phrase, and does not trigger. -/
theorem gatekeeper_allow_precedence_witness :
    (gatekeeper_guardrail (RawInput.single "other school but I am a my school student")).tripwire_triggered = false ∧
    (gatekeeper_guardrail (RawInput.single "other school but I am a my school student")).output_info.lookup "allowed" =
      some (DiagValue.vBool true) :=
  gatekeeper_allow_precedence (RawInput.single "other school but I am a my school student")
    (Or.inr (by decide))

/-- C4: when the normalized text contains no allow-phrase but contains at
least one of the five deny-phrases, the School-Gatekeeper Predicate
triggers with diagnostics reason = "other school detected". -/
theorem gatekeeper_deny_spec (input : RawInput)
    (hallow : ¬ ("from my school".toList <:+: (normalize input).toList) ∧
              ¬ ("my school student".toList <:+: (normalize input).toList))
    (hdeny : ∃ t ∈ triggersList, t.toList <:+: (normalize input).toList) :
    (gatekeeper_guardrail input).tripwire_triggered = true ∧
    (gatekeeper_guardrail input).output_info.lookup "reason" =
      some (DiagValue.vStr "other school detected") := by
  have hn : normalize input = lowerText (unify input) := rfl
  rw [hn] at hallow hdeny
  have h1 : strContains (lowerText (unify input)) "from my school" = false :=
    Bool.eq_false_iff.mpr (fun hc => hallow.1 ((strContains_iff _ _).mp hc))
  have h2 : strContains (lowerText (unify input)) "my school student" = false :=
    Bool.eq_false_iff.mpr (fun hc => hallow.2 ((strContains_iff _ _).mp hc))
  obtain ⟨t, ht, hinf⟩ := hdeny
  have hfind : (triggersList.find? fun t => strContains (lowerText (unify input)) t).isSome = true :=
    List.find?_isSome.mpr ⟨t, ht, (strContains_iff _ _).mpr hinf⟩
  obtain ⟨t', hft⟩ := Option.isSome_iff_exists.mp hfind
  simp [gatekeeper_guardrail, h1, h2, hft, List.lookup]

/-- C4 witness: the scenario input "Student from Other School wants to enter
the premises" triggers with reason "other school detected". -/
theorem gatekeeper_deny_spec_witness :
    (gatekeeper_guardrail (RawInput.single "Student from Other School wants to enter the premises")).tripwire_triggered = true ∧
    (gatekeeper_guardrail (RawInput.single "Student from Other School wants to enter the premises")).output_info.lookup "reason" =
      some (DiagValue.vStr "other school detected") :=
  gatekeeper_deny_spec (RawInput.single "Student from Other School wants to enter the premises")
    (by decide) ⟨"other school", by decide, by decide⟩

theorem firstDigitRun2_eq_none (l : List Char) (h : ∀ c ∈ l, c.isDigit = false) :
    firstDigitRun2 l = none := by
  induction l with
  | nil => rfl
  | cons c tl ih =>
    have hc : c.isDigit = false := h c (by simp)
    rw [show firstDigitRun2 (c :: tl) = firstDigitRun2 tl by simp [firstDigitRun2, hc]]
    exact ih fun x hx => h x (List.mem_cons_of_mem _ hx)

theorem firstDigitRun2_append (pre l : List Char) (hpre : ∀ c ∈ pre, c.isDigit = false) :
    firstDigitRun2 (pre ++ l) = firstDigitRun2 l := by
  induction pre with
  | nil => rfl
  | cons c tl ih =>
    have hc : c.isDigit = false := hpre c (by simp)
    rw [List.cons_append,
      show firstDigitRun2 (c :: (tl ++ l)) = firstDigitRun2 (tl ++ l) by simp [firstDigitRun2, hc]]
    exact ih fun x hx => hpre x (List.mem_cons_of_mem _ hx)

/-- C1: the Temperature Predicate triggers if and only if the normalized text
contains a digit group and the first (leftmost, at most two digit) group
parses to an integer strictly below 26; when the text has no digit at all the
verdict is triggered=false with detected_temp = null. -/
theorem father_temp_spec (input : RawInput) :
    ((father_temp_guardrail input).tripwire_triggered = true ↔
      ∃ ds, firstDigitRun2 (normalize input).toList = some ds ∧ digitsToNat ds < 26)
    ∧ ((∀ c ∈ (normalize input).toList, c.isDigit = false) →
        (father_temp_guardrail input).tripwire_triggered = false ∧
        (father_temp_guardrail input).output_info.lookup "detected_temp" =
          some DiagValue.vNone) := by
  have hn : normalize input = lowerText (unify input) := rfl
  rw [hn]
  simp only [father_temp_guardrail]
  cases h : firstDigitRun2 (lowerText (unify input)).toList with
  | none =>
    exact ⟨by simp, fun _ => ⟨rfl, by simp [List.lookup]⟩⟩
  | some ds =>
    constructor
    · by_cases hlt : digitsToNat ds < 26
      · simp [hlt]
      · simp [hlt]
    · intro hc
      rw [firstDigitRun2_eq_none _ hc] at h
      cases h

/-- C1 witness: "No number here" has no digit group, so the predicate does
not trigger and detected_temp is null. -/
theorem father_temp_spec_witness :
    (father_temp_guardrail (RawInput.single "No number here")).tripwire_triggered = false ∧
    (father_temp_guardrail (RawInput.single "No number here")).output_info.lookup "detected_temp" =
      some DiagValue.vNone :=
  (father_temp_spec (RawInput.single "No number here")).2 (by decide)

/-- C7: when the first run of digits of the normalized text is at least three
digits long, the pattern captures only the first two digits of that run:
detected_temp is the two-digit value and the trigger decision compares that
value (not the full number) against 26. -/
theorem father_temp_two_digit (input : RawInput) (pre post : List Char) (d1 d2 d3 : Char)
    (hsplit : (normalize input).toList = pre ++ d1 :: d2 :: d3 :: post)
    (hpre : ∀ c ∈ pre, c.isDigit = false)
    (h1 : d1.isDigit = true) (h2 : d2.isDigit = true) (_h3 : d3.isDigit = true) :
    firstDigitRun2 (normalize input).toList = some [d1, d2] ∧
    (father_temp_guardrail input).output_info.lookup "detected_temp" =
      some (DiagValue.vInt (digitsToNat [d1, d2])) ∧
    ((father_temp_guardrail input).tripwire_triggered = true ↔
      digitsToNat [d1, d2] < 26) := by
  have hrun : firstDigitRun2 (normalize input).toList = some [d1, d2] := by
    rw [hsplit, firstDigitRun2_append _ _ hpre]
    simp [firstDigitRun2, h1, h2]
  refine ⟨hrun, ?_⟩
  have hrun' : firstDigitRun2 (lowerText (unify input)).toList = some [d1, d2] := hrun
  simp only [father_temp_guardrail, hrun']
  split
  next hlt => exact ⟨by simp [List.lookup], by simp [hlt]⟩
  next hge => exact ⟨by simp [List.lookup], by simp [hge]⟩

/-- C7 witness: for "It is 100 degrees" the first number is "100", the
captured value is 10, and the predicate triggers even though 100 is not
below the threshold. -/
theorem father_temp_two_digit_witness :
    (father_temp_guardrail (RawInput.single "It is 100 degrees")).tripwire_triggered = true ∧
    (father_temp_guardrail (RawInput.single "It is 100 degrees")).output_info.lookup "detected_temp" =
      some (DiagValue.vInt 10) := by
  have h := father_temp_two_digit (RawInput.single "It is 100 degrees")
      ("it is ".toList) (" degrees".toList) '1' '0' '0'
      (by decide) (by decide) (by decide) (by decide) (by decide)
  rw [show digitsToNat ['1', '0'] = 10 from rfl] at h
  exact ⟨h.2.2.mpr (by decide), h.2.1⟩

theorem contains_iff_mem (l : List Char) (a : Char) : l.contains a = true ↔ a ∈ l := by
  simp [List.contains, List.elem_iff]

theorem isSepChar_cases {c : Char} (hs : isSepChar c = true) :
    c = ':' ∨ c = '-' ∨ c = ' ' ∨ c = '\t' ∨ c = '\n' ∨ c = '\r' ∨ c = '\x0b' ∨ c = '\x0c' := by
  simpa [isSepChar, isPySpace, Bool.or_eq_true, beq_iff_eq, or_assoc] using hs

theorem sep_and_cap {c : Char} (hs : isSepChar c = true) (hc : isCapChar c = true) :
    c = ' ' := by
  rcases isSepChar_cases hs with h | h | h | h | h | h | h | h <;> subst h <;>
    first
      | rfl
      | exact absurd hc (by decide)

theorem prefix_takeWhile_of_all {p : Char → Bool} :
    ∀ {s l : List Char}, (∀ c ∈ s, p c = true) → s <+: l → s <+: l.takeWhile p := by
  intro s
  induction s with
  | nil => intro l _ _; exact ⟨l.takeWhile p, rfl⟩
  | cons a s' ih =>
    intro l hall hpre
    cases l with
    | nil => exact absurd hpre (by simp)
    | cons b bs =>
      rw [List.cons_prefix_cons] at hpre
      obtain ⟨rfl, hpre'⟩ := hpre
      have hpa : p a = true := hall a (by simp)
      rw [List.takeWhile_cons, hpa]
      exact List.cons_prefix_cons.mpr
        ⟨rfl, ih (fun c hc => hall c (List.mem_cons_of_mem _ hc)) hpre'⟩

theorem stripPrefixL_eq_some_iff (needle hay r : List Char) :
    stripPrefixL needle hay = some r ↔ hay = needle ++ r := by
  induction needle generalizing hay with
  | nil => simp [stripPrefixL]
  | cons a as ih =>
    cases hay with
    | nil => simp [stripPrefixL]
    | cons b bs =>
      by_cases hab : a = b
      · subst hab
        simp [stripPrefixL, ih]
      · have hba : (a == b) = false := beq_eq_false_iff_ne.mpr hab
        simp only [stripPrefixL, hba, Bool.false_eq_true, if_false, List.cons_append]
        constructor
        · intro h; cases h
        · intro h
          exact absurd (List.cons.injEq .. ▸ h).1.symm hab

theorem matchSchoolAt_isSome_iff (rest : List Char) :
    (matchSchoolAt rest).isSome = true ↔
      ∃ sep cap post, rest = sep ++ cap ++ post ∧ (∀ c ∈ sep, isSepChar c = true) ∧
        cap ≠ [] ∧ (∀ c ∈ cap, isCapChar c = true) := by
  constructor
  · intro h
    by_cases hcap : (rest.dropWhile isSepChar).takeWhile isCapChar = []
    · by_cases hsp : (rest.takeWhile isSepChar).contains ' ' = true
      · have hmem : ' ' ∈ rest.takeWhile isSepChar := (contains_iff_mem _ _).mp hsp
        obtain ⟨s1, s2, hT⟩ := List.append_of_mem hmem
        refine ⟨s1, [' '], s2 ++ rest.dropWhile isSepChar, ?_, ?_, by simp, ?_⟩
        · conv_lhs => rw [← List.takeWhile_append_dropWhile isSepChar rest, hT]
          simp
        · intro c hc
          exact List.mem_takeWhile_imp (l := rest) (hT ▸ List.mem_append_left _ hc)
        · intro c hc
          simp only [List.mem_singleton] at hc
          subst hc; decide
      · exfalso
        have hnone : matchSchoolAt rest = none := by
          simp only [matchSchoolAt]
          rw [if_neg (fun hne' => hne' hcap), if_neg hsp]
        rw [hnone] at h
        cases h
    · refine ⟨rest.takeWhile isSepChar, (rest.dropWhile isSepChar).takeWhile isCapChar,
        (rest.dropWhile isSepChar).dropWhile isCapChar, ?_, ?_, hcap, ?_⟩
      · rw [List.append_assoc, List.takeWhile_append_dropWhile, List.takeWhile_append_dropWhile]
      · exact fun c hc => List.mem_takeWhile_imp hc
      · exact fun c hc => List.mem_takeWhile_imp hc
  · rintro ⟨sep, cap, post, rfl, hsall, hne, hcall⟩
    cases cap with
    | nil => exact absurd rfl hne
    | cons c0 cap' =>
      have hc0cap : isCapChar c0 = true := hcall c0 (by simp)
      by_cases hc0 : isSepChar c0 = true
      · have hc0sp : c0 = ' ' := sep_and_cap hc0 hc0cap
        subst hc0sp
        have hp : (sep ++ [' ']) <+: ((sep ++ (' ' :: cap') ++ post).takeWhile isSepChar) := by
          apply prefix_takeWhile_of_all
          · intro c hc
            rcases List.mem_append.mp hc with h1 | h2
            · exact hsall c h1
            · simp only [List.mem_singleton] at h2
              subst h2; exact hc0
          · exact ⟨cap' ++ post, by simp⟩
        have hsp : ((sep ++ (' ' :: cap') ++ post).takeWhile isSepChar).contains ' ' = true :=
          (contains_iff_mem _ _).mpr (hp.mem (by simp))
        by_cases hcapb :
            ((sep ++ (' ' :: cap') ++ post).dropWhile isSepChar).takeWhile isCapChar = []
        · simp only [matchSchoolAt]
          rw [if_neg (fun hne' => hne' hcapb), if_pos hsp]
          rfl
        · simp only [matchSchoolAt]
          rw [if_pos hcapb]
          rfl
      · have hd : (sep ++ (c0 :: cap') ++ post).dropWhile isSepChar = c0 :: (cap' ++ post) := by
          rw [List.append_assoc, List.dropWhile_append_of_pos hsall, List.cons_append,
            List.dropWhile_cons]
          simp [hc0]
        have hcne : ((sep ++ (c0 :: cap') ++ post).dropWhile isSepChar).takeWhile isCapChar ≠ [] := by
          rw [hd]
          simp [List.takeWhile_cons, hc0cap]
        simp only [matchSchoolAt]
        rw [if_pos hcne]
        rfl

theorem schoolSearch_mem_decomp {l cap : List Char} (h : schoolSearch l = some cap) :
    ∃ pre rest, l = pre ++ schoolL ++ rest ∧ matchSchoolAt rest = some cap := by
  induction l with
  | nil => simp [schoolSearch] at h
  | cons c tl ih =>
    simp only [schoolSearch] at h
    cases hs : stripPrefixL schoolL (c :: tl) with
    | some rest =>
      simp only [hs] at h
      cases hm : matchSchoolAt rest with
      | some cap' =>
        simp only [hm] at h
        obtain rfl : cap' = cap := Option.some.inj h
        refine ⟨[], rest, ?_, hm⟩
        simpa using (stripPrefixL_eq_some_iff _ _ _).mp hs
      | none =>
        simp only [hm] at h
        obtain ⟨pre, rest', heq, hm'⟩ := ih h
        exact ⟨c :: pre, rest', by simp [heq], hm'⟩
    | none =>
      simp only [hs] at h
      obtain ⟨pre, rest', heq, hm'⟩ := ih h
      exact ⟨c :: pre, rest', by simp [heq], hm'⟩

theorem schoolSearch_append_isSome (rest : List Char)
    (h : (matchSchoolAt rest).isSome = true) :
    ∀ pre : List Char, (schoolSearch (pre ++ schoolL ++ rest)).isSome = true := by
  intro pre
  induction pre with
  | nil =>
    rw [List.nil_append]
    have hs : stripPrefixL schoolL (schoolL ++ rest) = some rest :=
      (stripPrefixL_eq_some_iff _ _ _).mpr rfl
    rw [show schoolL ++ rest = 's' :: ('c' :: 'h' :: 'o' :: 'o' :: 'l' :: rest) from rfl] at hs ⊢
    obtain ⟨cap, hm⟩ := Option.isSome_iff_exists.mp h
    simp only [schoolSearch, hs, hm]
    rfl
  | cons c tl ih =>
    rw [List.cons_append, List.cons_append]
    simp only [schoolSearch]
    cases hs : stripPrefixL schoolL (c :: (tl ++ schoolL ++ rest)) with
    | some rest' =>
      simp only []
      cases hm : matchSchoolAt rest' with
      | some cap => rfl
      | none => simpa [List.append_assoc] using ih
    | none => simpa [List.append_assoc] using ih

theorem schoolSearch_isSome_iff (l : List Char) :
    (schoolSearch l).isSome = true ↔
      ∃ pre sep cap post, l = pre ++ schoolL ++ (sep ++ cap ++ post) ∧
        (∀ c ∈ sep, isSepChar c = true) ∧ cap ≠ [] ∧ (∀ c ∈ cap, isCapChar c = true) := by
  constructor
  · intro h
    obtain ⟨cap0, hc⟩ := Option.isSome_iff_exists.mp h
    obtain ⟨pre, rest, heq, hm⟩ := schoolSearch_mem_decomp hc
    have hms : (matchSchoolAt rest).isSome = true := by simp [hm]
    obtain ⟨sep, cap, post, hr, hsall, hne, hcall⟩ := (matchSchoolAt_isSome_iff rest).mp hms
    exact ⟨pre, sep, cap, post, by rw [heq, hr], hsall, hne, hcall⟩
  · rintro ⟨pre, sep, cap, post, rfl, hsall, hne, hcall⟩
    exact schoolSearch_append_isSome _
      ((matchSchoolAt_isSome_iff _).mpr ⟨sep, cap, post, rfl, hsall, hne, hcall⟩) pre

/-- C5: on texts with no allow-phrase and no deny-phrase, the structured
extraction decides the verdict.  The scanner finds a capture exactly when the
text decomposes as some prefix, the literal "school", a run of separator
characters (':', '-', whitespace), and a non-empty run of capture characters
(lowercase letters, digits, spaces); when the first capture, trimmed, does
not contain "my school" the predicate triggers with school_name set to that
trimmed capture, and when the capture contains "my school" or no capture
exists the predicate allows. -/
theorem gatekeeper_structured_spec (input : RawInput)
    (hallow : ¬ ("from my school".toList <:+: (normalize input).toList) ∧
              ¬ ("my school student".toList <:+: (normalize input).toList))
    (hdeny : ∀ t ∈ triggersList, ¬ (t.toList <:+: (normalize input).toList)) :
    ((∃ pre sep cap post,
        (normalize input).toList = pre ++ schoolL ++ (sep ++ cap ++ post) ∧
        (∀ c ∈ sep, isSepChar c = true) ∧ cap ≠ [] ∧ (∀ c ∈ cap, isCapChar c = true)) ↔
      (schoolSearch (normalize input).toList).isSome = true)
    ∧ (∀ cap, schoolSearch (normalize input).toList = some cap →
        (strContains (String.mk (pyStrip cap)) "my school" = false →
          (gatekeeper_guardrail input).tripwire_triggered = true ∧
          (gatekeeper_guardrail input).output_info.lookup "school_name" =
            some (DiagValue.vStr (String.mk (pyStrip cap))))
        ∧ (strContains (String.mk (pyStrip cap)) "my school" = true →
          (gatekeeper_guardrail input).tripwire_triggered = false ∧
          (gatekeeper_guardrail input).output_info.lookup "allowed" =
            some (DiagValue.vBool true)))
    ∧ (schoolSearch (normalize input).toList = none →
        (gatekeeper_guardrail input).tripwire_triggered = false ∧
        (gatekeeper_guardrail input).output_info.lookup "allowed" =
          some (DiagValue.vBool true)) := by
  have h1 : strContains (lowerText (unify input)) "from my school" = false :=
    Bool.eq_false_iff.mpr (fun hcc => hallow.1 ((strContains_iff _ _).mp hcc))
  have h2 : strContains (lowerText (unify input)) "my school student" = false :=
    Bool.eq_false_iff.mpr (fun hcc => hallow.2 ((strContains_iff _ _).mp hcc))
  have hfind : (triggersList.find? fun t => strContains (lowerText (unify input)) t) = none :=
    List.find?_eq_none.mpr (fun t ht hc => hdeny t ht ((strContains_iff _ _).mp hc))
  refine ⟨(schoolSearch_isSome_iff _).symm, ?_, ?_⟩
  · intro cap hcap
    have hcap' : schoolSearch (lowerText (unify input)).data = some cap := hcap
    constructor
    · intro hnc
      simp [gatekeeper_guardrail, h1, h2, hfind, hcap', hnc, List.lookup]
    · intro hyc
      simp [gatekeeper_guardrail, h1, h2, hfind, hcap', hyc, List.lookup]
  · intro hnone
    have hnone' : schoolSearch (lowerText (unify input)).data = none := hnone
    simp [gatekeeper_guardrail, h1, h2, hfind, hnone', List.lookup]

/-- C5 witness: "School: Greenwood High" has no allow- or deny-phrase; the
structured parse captures "greenwood high" and the predicate triggers with
that school_name. -/
theorem gatekeeper_structured_spec_witness :
    (gatekeeper_guardrail (RawInput.single "School: Greenwood High")).tripwire_triggered = true ∧
    (gatekeeper_guardrail (RawInput.single "School: Greenwood High")).output_info.lookup "school_name" =
      some (DiagValue.vStr "greenwood high") := by
  have h := ((gatekeeper_structured_spec (RawInput.single "School: Greenwood High")
      (by decide) (by decide)).2.1 ("greenwood high".toList) (by decide)).1 (by decide)
  rw [show String.mk (pyStrip ("greenwood high".toList)) = "greenwood high" from by decide] at h
  exact h

/-- C6 counterexample: on input "Hello" the Class-Timing Predicate stores
"Hello" (the flattened input before lowercasing) under "text", which differs
from the normalized text "hello"; so the diagnostics "text" value is not the
normalized text. -/
theorem diag_text_not_normalized_cex :
    ¬ ((class_timing_guardrail (RawInput.single "Hello")).output_info.lookup "text" =
        some (DiagValue.vStr (normalize (RawInput.single "Hello")))) := by
  decide

/-- C6 amended: for every input and each of the three predicates, the value
stored under "text" in the diagnostics equals the flattened (space-joined)
input BEFORE lowercasing, i.e. `unify input`, not the lowercased normalized
text. -/
theorem diag_text_is_unified (input : RawInput) :
    (class_timing_guardrail input).output_info.lookup "text" =
      some (DiagValue.vStr (unify input)) ∧
    (father_temp_guardrail input).output_info.lookup "text" =
      some (DiagValue.vStr (unify input)) ∧
    (gatekeeper_guardrail input).output_info.lookup "text" =
      some (DiagValue.vStr (unify input)) := by
  refine ⟨?_, ?_, ?_⟩
  · simp only [class_timing_guardrail]
    split
    · exact lookup_text_second _ _ _ (by decide)
    · exact lookup_text_second _ _ _ (by decide)
  · simp only [father_temp_guardrail]
    split
    · split
      · exact lookup_text_second _ _ _ (by decide)
      · exact lookup_text_second _ _ _ (by decide)
    · exact lookup_text_second _ _ _ (by decide)
  · simp only [gatekeeper_guardrail]
    split
    · exact lookup_text_second _ _ _ (by decide)
    · split
      · exact lookup_text_second _ _ _ (by decide)
      · split
        · split
          · exact lookup_text_second _ _ _ (by decide)
          · exact lookup_text_second _ _ _ (by decide)
        · exact lookup_text_second _ _ _ (by decide)

theorem intercalate_go_eq (as : List String) (acc : String) :
    String.intercalate.go acc " " as = acc ++ restJoin as := by
  induction as generalizing acc with
  | nil => simp [String.intercalate.go, restJoin]
  | cons a as ih =>
    rw [String.intercalate.go, ih, restJoin]
    simp [String.append_assoc]

theorem joinOneSpace_cons (a : String) (as : List String) :
    joinOneSpace (a :: as) = a ++ restJoin as := by
  induction as generalizing a with
  | nil => simp [joinOneSpace, restJoin]
  | cons b bs ih =>
    rw [joinOneSpace, restJoin, ih b]
    simp [String.append_assoc]

theorem intercalate_space_eq (l : List String) :
    String.intercalate " " l = joinOneSpace l := by
  cases l with
  | nil => rfl
  | cons a as =>
    rw [show String.intercalate " " (a :: as) = String.intercalate.go a " " as from rfl,
      intercalate_go_eq, joinOneSpace_cons]

/-- C8: normalization of a sequence input takes each element's content field
when present (else its string form), joins the parts with exactly one space
in sequence order, and lowercases; normalization of a single value is the
lowercased string form; lowercasing maps each character to its lowercase
form. -/
theorem normalize_spec :
    (∀ items : List Msg, normalize (RawInput.seq items) =
        lowerText (joinOneSpace (items.map (fun m => m.content.getD m.strForm)))) ∧
    (∀ s : String, normalize (RawInput.single s) = lowerText s) ∧
    (∀ input : RawInput, (normalize input).data = (unify input).data.map Char.toLower) := by
  refine ⟨fun items => ?_, fun s => rfl, fun input => rfl⟩
  have hmap : items.map (fun m => m.content.getD m.strForm) = items.map msgStr := rfl
  rw [hmap]
  simp only [normalize, unify, intercalate_space_eq]

/-- C9: an input that mentions only the speaker's own school can still
trigger the gatekeeper: on "my school is great" the structured parse captures
"is great" after the word "school", that token does not contain "my school",
and the predicate triggers with school_name = "is great". -/
theorem gatekeeper_own_school_false_trigger :
    (gatekeeper_guardrail (RawInput.single "my school is great")).tripwire_triggered = true ∧
    (gatekeeper_guardrail (RawInput.single "my school is great")).output_info.lookup "school_name" =
      some (DiagValue.vStr "is great") := by
  decide

/-- C10: on the empty-sequence input and on the empty-string input,
normalization yields "" and all three predicates return triggered=false with
their permissive diagnostics (ok / detected_temp = null / allowed). -/
theorem empty_input_verdicts :
    normalize (RawInput.seq []) = "" ∧
    normalize (RawInput.single "") = "" ∧
    (class_timing_guardrail (RawInput.seq [])).tripwire_triggered = false ∧
    (class_timing_guardrail (RawInput.seq [])).output_info.lookup "ok" =
      some (DiagValue.vBool true) ∧
    (class_timing_guardrail (RawInput.single "")).tripwire_triggered = false ∧
    (class_timing_guardrail (RawInput.single "")).output_info.lookup "ok" =
      some (DiagValue.vBool true) ∧
    (father_temp_guardrail (RawInput.seq [])).tripwire_triggered = false ∧
    (father_temp_guardrail (RawInput.seq [])).output_info.lookup "detected_temp" =
      some DiagValue.vNone ∧
    (father_temp_guardrail (RawInput.single "")).tripwire_triggered = false ∧
    (father_temp_guardrail (RawInput.single "")).output_info.lookup "detected_temp" =
      some DiagValue.vNone ∧
    (gatekeeper_guardrail (RawInput.seq [])).tripwire_triggered = false ∧
    (gatekeeper_guardrail (RawInput.seq [])).output_info.lookup "allowed" =
      some (DiagValue.vBool true) ∧
    (gatekeeper_guardrail (RawInput.single "")).tripwire_triggered = false ∧
    (gatekeeper_guardrail (RawInput.single "")).output_info.lookup "allowed" =
      some (DiagValue.vBool true) := by
  decide

end Guardrail
